import Mathlib

/-!
Verification development for the Sales Proposal Automation System (`main.py`).

The Python source is shallowly embedded: pure functions become Lean
functions, HTTP / browser / LLM side effects become explicit oracle values
passed in, bytes become `List Nat` (each < 256), Python strings become
`String` / `List Char`.
-/

namespace SPAS

/-- Python-style whitespace test (the characters `str.strip` removes). -/
def isPySpace (c : Char) : Bool :=
  c = ' ' || c = '\t' || c = '\n' || c = '\x0d' || c = '\x0b' || c = '\x0c'

/-- Test that `pre` is an initial segment of `l` (`leadsWith pre l`). -/
def leadsWith : List Char → List Char → Bool
  | [], _ => true
  | _ :: _, [] => false
  | a :: as, b :: bs => a == b && leadsWith as bs

/-- Test that `needle` occurs contiguously inside `hay`
(Python's `needle in hay`). -/
def hasSub (needle : List Char) : List Char → Bool
  | [] => needle.isEmpty
  | l@(_ :: t) => leadsWith needle l || hasSub needle t

/-- Python `str.strip()` on a character list. -/
def pyStrip (l : List Char) : List Char :=
  ((l.dropWhile isPySpace).reverse.dropWhile isPySpace).reverse

/-- Lower-case a character list (Python `str.lower()` on ASCII data). -/
def lowerChars (l : List Char) : List Char := l.map Char.toLower

/-!
## `_infer_class` (main.py lines 1503-1511)

Keyword heuristic mapping a node label to one of the four style classes
`"reject" / "accept" / "main" / "sub"`.
-/

def rejectKeywords : List String :=
  ["reject", "rejection", "fail", "error", "technical", "rts", "return to sender"]

def acceptKeywords : List String :=
  ["accept", "approved", "success", "output", "dispatch"]

def mainKeywords : List String :=
  ["infeed", "volume distribution", "vds", "induct", "sorter", "cbs", "swedi",
   "scanning", "print & apply", "dimension", "weigh"]

/-- Python's `any(k in L for k in ks)` with `L` the lower-cased label. -/
def anyKeyword (ks : List String) (lowered : List Char) : Bool :=
  ks.any (fun k => hasSub k.data lowered)

/-- Embedding of `_infer_class(label)` from main.py lines 1503-1511. -/
def _infer_class (label : String) : String :=
  let L := lowerChars label.data
  if anyKeyword rejectKeywords L then "reject"
  else if anyKeyword acceptKeywords L then "accept"
  else if anyKeyword mainKeywords L then "main"
  else "sub"

/-!
## `merge_docx_files_with_page_breaks` (main.py lines 803-820) and
`_add_page_break` (lines 378-381)

A document buffer is abstracted as an opaque value of type `α`; the merged
document is the list of appended pieces, where `_add_page_break` contributes
a `pageBreak` element before each appended fragment.
-/

/-- An element of the merged document: an appended fragment's content, or
the explicit page-break paragraph inserted by `_add_page_break`. -/
inductive MergeElem (α : Type) where
  | frag (a : α)
  | pageBreak
  deriving DecidableEq, Repr

def MergeElem.isBreak {α : Type} : MergeElem α → Bool
  | .frag _ => false
  | .pageBreak => true

def MergeElem.frag? {α : Type} : MergeElem α → Option α
  | .frag a => some a
  | .pageBreak => none

/-- Loop body of `merge_docx_files_with_page_breaks`: for each buffer after
the first, `None` is skipped, otherwise a page break is added and the
document appended. -/
def mergeTail {α : Type} (tail : List (Option α)) : List (MergeElem α) :=
  tail.foldl (fun acc buf =>
    match buf with
    | none => acc
    | some b => acc ++ [MergeElem.pageBreak, MergeElem.frag b]) []

/-- Embedding of `merge_docx_files_with_page_breaks(buffers_list)`:
raises `ValueError` (modelled as `Except.error`) when the list is empty or
its first element is `None`; otherwise builds on the base document. -/
def merge_docx_files_with_page_breaks {α : Type} (buffers_list : List (Option α)) :
    Except String (List (MergeElem α)) :=
  match buffers_list with
  | [] => .error "At least one valid document buffer is required as base document."
  | none :: _ => .error "At least one valid document buffer is required as base document."
  | some base :: rest => .ok (MergeElem.frag base :: mergeTail rest)

/-!
## Mermaid → PNG rendering fallback chain
(`_svg_bytes_to_png` lines 1351-1359, `mermaid_to_png_via_kroki` lines
1361-1404, `mermaid_to_png_via_chrome` lines 1407-1445,
`mermaid_to_png_best_effort` lines 1447-1452)

The external world is an explicit environment: availability flags for the
optional libraries and one oracle value per external call the code can
make.  An HTTP call outcome is `none` when the call raised (timeout,
connection error) and `some (ok, content)` for a response with status
flag `r.ok` and body bytes `r.content`.
-/

/-- Outcome of one HTTP request: `none` = exception raised,
`some (ok, content)` = a response object. -/
abbrev HttpOutcome := Option (Bool × List Nat)

structure RenderEnv where
  hasRequests : Bool
  hasCairosvg : Bool
  hasSelenium : Bool
  /-- POST `{kroki}/mermaid/png` outcome. -/
  krokiPng : HttpOutcome
  /-- POST `{kroki}/mermaid/svg` outcome. -/
  krokiSvg : HttpOutcome
  /-- GET `https://mermaid.ink/img/...` outcome. -/
  inkPng : HttpOutcome
  /-- GET `https://mermaid.ink/svg/...` outcome. -/
  inkSvg : HttpOutcome
  /-- Outcome of `cairosvg.svg2png(bytestring=svg)`: `none` = raised, `some b` = bytes. -/
  cairo : List Nat → Option (List Nat)
  /-- The whole Selenium screenshot block: `none` = some step raised,
  `some b` = screenshot bytes. -/
  chrome : Option (List Nat)

/-- Embedding of `_svg_bytes_to_png(svg_bytes)` (lines 1351-1359). -/
def svg_bytes_to_png (env : RenderEnv) (svg : List Nat) : Option (List Nat) :=
  if svg = [] then none
  else if env.hasCairosvg then env.cairo svg
  else none

/-- The acceptance test `if r.ok and r.content: return r.content` applied to an HTTP outcome
inside a `try`/`except` block. -/
def tryResp (r : HttpOutcome) : Option (List Nat) :=
  match r with
  | some (true, c) => if c = [] then none else some c
  | _ => none

/-- Strategy 1 of `mermaid_to_png_via_kroki`: Kroki raster endpoint. -/
def strat1 (env : RenderEnv) : Option (List Nat) := tryResp env.krokiPng

/-- Strategy 2: Kroki vector endpoint, locally rasterized; the rasterized
bytes are accepted only when non-empty (`if png:`). -/
def strat2 (env : RenderEnv) : Option (List Nat) :=
  match tryResp env.krokiSvg with
  | none => none
  | some c =>
    match svg_bytes_to_png env c with
    | none => none
    | some png => if png = [] then none else some png

/-- Strategy 3: mermaid.ink raster endpoint (deflate+base64 URL). -/
def strat3 (env : RenderEnv) : Option (List Nat) := tryResp env.inkPng

/-- Strategy 4: mermaid.ink vector endpoint, locally rasterized. -/
def strat4 (env : RenderEnv) : Option (List Nat) :=
  match tryResp env.inkSvg with
  | none => none
  | some c =>
    match svg_bytes_to_png env c with
    | none => none
    | some png => if png = [] then none else some png

/-- Embedding of `mermaid_to_png_via_kroki(mermaid_code)`
(lines 1361-1404). -/
def mermaid_to_png_via_kroki (env : RenderEnv) (mermaid_code : String) :
    Option (List Nat) :=
  if ¬ env.hasRequests ∨ mermaid_code = "" then none
  else
    match strat1 env with
    | some c => some c
    | none =>
      match strat2 env with
      | some c => some c
      | none =>
        match strat3 env with
        | some c => some c
        | none => strat4 env

/-- Embedding of `mermaid_to_png_via_chrome(mermaid_code)`
(lines 1407-1445): guard on Selenium availability and non-empty code,
then the screenshot block outcome. -/
def mermaid_to_png_via_chrome (env : RenderEnv) (mermaid_code : String) :
    Option (List Nat) :=
  if ¬ (env.hasSelenium ∧ mermaid_code ≠ "") then none
  else env.chrome

/-- Embedding of `mermaid_to_png_best_effort(code)` (lines 1447-1452):
`png = via_kroki(code); if png: return png; return via_chrome(code)`. -/
def mermaid_to_png_best_effort (env : RenderEnv) (code : String) :
    Option (List Nat) :=
  match mermaid_to_png_via_kroki env code with
  | some c => if c = [] then mermaid_to_png_via_chrome env code else some c
  | none => mermaid_to_png_via_chrome env code

/-!
## Diagram synthesis validation (`ask_llm_mermaid` lines 1263-1279 and its
caller in `step4_content`, lines 2870-2884)

The generative call is an oracle: `none` models the call raising,
`some content` models `resp.choices[0].message.content` (itself optional,
as the API may return a null content).
-/

/-- Embedding of `re.sub(r"^```(?:mermaid)?\s*", "", out)`: strip one leading code
fence, optionally tagged `mermaid`, plus following whitespace. -/
def stripLeadFence (l : List Char) : List Char :=
  if leadsWith "```".data l then
    let r := l.drop 3
    let r := if leadsWith "mermaid".data r then r.drop 7 else r
    r.dropWhile isPySpace
  else l

/-- Embedding of `re.sub(r"\s*```$", "", out)`: strip one trailing code fence plus the
whitespace run preceding it. -/
def stripTrailFence (l : List Char) : List Char :=
  if leadsWith "```".data l.reverse then
    (((l.reverse.drop 3).dropWhile isPySpace)).reverse
  else l

/-- One step of `re.search(r"(flowchart\s+TD[\s\S]+)$", out, re.IGNORECASE)`
at the current position: case-insensitive `flowchart`, one-or-more
whitespace, case-insensitive `TD`, at least one further character. -/
def flowTDHere (l : List Char) : Bool :=
  leadsWith "flowchart".data (lowerChars (l.take 9)) &&
    (let r := l.drop 9
     decide ((r.takeWhile isPySpace).length ≥ 1) &&
       (let s := r.dropWhile isPySpace
        leadsWith "td".data (lowerChars (s.take 2)) && decide (s.length ≥ 3)))

/-- Leftmost match of the salvage regex: the matched group runs from the
match position to the end of the string. -/
def findFlowTD : List Char → Option (List Char)
  | [] => none
  | l@(_ :: t) => if flowTDHere l then some l else findFlowTD t

/-- Embedding of `ask_llm_mermaid` (lines 1263-1279) as a function of the
LLM response content. -/
def ask_llm_mermaid (content : Option String) : String :=
  let out := pyStrip (content.getD "").data
  let out := stripLeadFence out
  let out := stripTrailFence out
  let out :=
    if leadsWith "flowchart".data (lowerChars out) then out
    else
      match findFlowTD out with
      | some m => pyStrip m
      | none => out
  ⟨out⟩

/-- Result of the "Generate flowchart from solution PDF" handler
(`step4_content`, lines 2870-2884): number of generative calls issued,
whether the validation error was shown, and the stored Mermaid code. -/
structure GenOutcome where
  llmCalls : Nat
  errorShown : Bool
  stored : Option String
  deriving Repr, DecidableEq

/-- Embedding of the generation handler: `txt` is the extracted text
(`""` when extraction failed), `llm` the oracle for the single generative
call (`none` = the call raised). -/
def step4_generate (txt : String) (llm : Option (Option String)) : GenOutcome :=
  let (calls, code) :=
    if txt = "" then (0, "")
    else
      match llm with
      | none => (1, "")
      | some content => (1, ask_llm_mermaid content)
  if code = "" ∨ ¬ leadsWith "flowchart".data (lowerChars code.data) then
    { llmCalls := calls, errorShown := true, stored := none }
  else
    { llmCalls := calls, errorShown := false, stored := some ⟨pyStrip code.data⟩ }

/-!
## Concurrent prose generation
(`generate_cover_letters_concurrent` lines 1047-1084,
`generate_exec_summaries_concurrent` lines 1117-1147)

Each of the two generative calls is an oracle
`Except String (Option String)`: `.error e` models the call raising `e`,
`.ok c` models a returned content (which the API may give as null).
`as_completed` yields the two futures in an arbitrary order; the order is
an explicit parameter, a list of slot indices.
-/

/-- What the loop body stores into `outputs[idx]`: the call's content on
success, the diagnostic placeholder on exception. -/
def slotValue (placeholder : String) (r : Except String (Option String)) :
    Option String :=
  match r with
  | .ok c => c
  | .error e => some (placeholder ++ e)

/-- The `for fut in as_completed(futures)` loop: fills the two fixed
slots (initially `[None, None]`) in completion order. -/
def fillSlots (placeholder : String) (r0 r1 : Except String (Option String))
    (order : List (Fin 2)) : Option String × Option String :=
  order.foldl
    (fun acc i =>
      if i = 0 then (slotValue placeholder r0, acc.2)
      else (acc.1, slotValue placeholder r1))
    (none, none)

/-- Embedding of `generate_cover_letters_concurrent` (lines 1047-1084),
as a function of the two call outcomes and the completion order:
`return outputs[0] or "", outputs[1] or ""`. -/
def generate_cover_letters_concurrent (r0 r1 : Except String (Option String))
    (order : List (Fin 2)) : String × String :=
  let o := fillSlots "Cover letter generation failed: " r0 r1 order
  (o.1.getD "", o.2.getD "")

/-- Embedding of `generate_exec_summaries_concurrent` (lines 1117-1147):
the PDF-parsing preamble, then the same two-slot concurrent pattern.
`pdf` is the parse outcome (`.error e` = raised), a page being its text. -/
def generate_exec_summaries_concurrent (pdf : Except String (List String))
    (r0 r1 : Except String (Option String)) (order : List (Fin 2)) :
    String × String :=
  match pdf with
  | .error e => ("PDF parsing failed: " ++ e, "PDF parsing failed: " ++ e)
  | .ok pages =>
    if pages = [] then ("No pages found in PDF.", "No pages found in PDF.")
    else
      let o := fillSlots "Executive summary generation failed: " r0 r1 order
      (o.1.getD "", o.2.getD "")

/-- The value a slot contributes to the returned pair
(`outputs[i] or ""`). -/
def slotResult (placeholder : String) (r : Except String (Option String)) :
    String :=
  ((slotValue placeholder r).getD "")

/-!
## Refresh-button cooldown (`step4_content`, lines 2967-2983)

The handler computes a `can_refresh` flag from the elapsed time since
`fs.last_refresh_ts` (3-second cooldown) and then runs
`_auto_refresh_drawio_preview()` whenever the button is clicked.  Times
are modelled in seconds as rationals.
-/

/-- Observable outcome of one rendering of the refresh-button block. -/
structure RefreshOutcome where
  /-- The computed `can_refresh` flag (false within the cooldown). -/
  canRefresh : Bool
  /-- Whether `_auto_refresh_drawio_preview()` (the external export) ran. -/
  exportInvoked : Bool
  deriving Repr, DecidableEq

/-- Embedding of the refresh-button block (lines 2967-2983):
`can_refresh` is set from the elapsed time, and the export runs whenever
`st.button(...)` reports a click — the flag is not consulted. -/
def step4_refresh_click (last_refresh_ts : Option ℚ) (now : ℚ)
    (clicked : Bool) : RefreshOutcome :=
  let c :=
    match last_refresh_ts with
    | none => true
    | some t => if now - t < 3 then false else true
  { canRefresh := c, exportInvoked := clicked }

/-!
## `_auto_crop_png_whitespace` (main.py lines 2232-2270)

A decoded raster image is a rectangular grid of pixels with a pixel
accessor; the PNG encode/decode steps are identities on this
representation.  The embedding follows PIL's documented integer
arithmetic: `convert("L")` uses `L = (19595 R + 38470 G + 7471 B +
0x8000) >> 16`, and `paste` with an alpha mask blends with the
round-to-nearest `MULDIV255` kernel.
-/

/-- An RGB pixel (each channel `0..255`). -/
abbrev RGB := Nat × Nat × Nat

/-- A rectangular pixel grid. -/
structure Grid (π : Type) where
  w : Nat
  h : Nat
  pix : Nat → Nat → π

/-- A decoded image in one of the two modes the function works in
(`convert("RGBA")` folds every other mode into `rgba`). -/
inductive Img where
  | rgb (g : Grid RGB)
  | rgba (g : Grid (RGB × Nat))

/-- Pixel dimensions of an image. -/
def Img.dims : Img → Nat × Nat
  | .rgb g => (g.w, g.h)
  | .rgba g => (g.w, g.h)

def mapGrid {π ρ : Type} (f : π → ρ) (g : Grid π) : Grid ρ :=
  ⟨g.w, g.h, fun x y => f (g.pix x y)⟩

/-- PIL `convert("L")` luminance of an RGB pixel. -/
def grayVal (p : RGB) : Nat :=
  (19595 * p.1 + 38470 * p.2.1 + 7471 * p.2.2 + 32768) / 65536

/-- A pixel surviving `point(lambda p: 255 if p > 245 else 0)` followed by
`ImageOps.invert(...).getbbox()`: gray value at most 245. -/
def nonWhiteB (p : RGB) : Bool := decide (grayVal p ≤ 245)

/-- Columns containing at least one pixel satisfying `p`. -/
def hitCols {π : Type} (p : π → Bool) (g : Grid π) : Finset Nat :=
  (Finset.range g.w).filter (fun x => ∃ y ∈ Finset.range g.h, p (g.pix x y) = true)

/-- Rows containing at least one pixel satisfying `p`. -/
def hitRows {π : Type} (p : π → Bool) (g : Grid π) : Finset Nat :=
  (Finset.range g.h).filter (fun y => ∃ x ∈ Finset.range g.w, p (g.pix x y) = true)

/-- PIL `Image.getbbox` for the mask of pixels satisfying `p`: the tight
`(left, upper, right, lower)` box (right/lower exclusive), or `none` when
no pixel satisfies `p`. -/
def getbbox {π : Type} (p : π → Bool) (g : Grid π) :
    Option (Nat × Nat × Nat × Nat) :=
  if hc : (hitCols p g).Nonempty then
    if hr : (hitRows p g).Nonempty then
      some ((hitCols p g).min' hc, (hitRows p g).min' hr,
            (hitCols p g).max' hc + 1, (hitRows p g).max' hr + 1)
    else none
  else none

/-- PIL `Image.crop((l, t, r, b))`. -/
def cropGrid {π : Type} (g : Grid π) (l t r b : Nat) : Grid π :=
  ⟨r - l, b - t, fun x y => g.pix (x + l) (y + t)⟩

/-- PIL's `MULDIV255` rounding kernel: `a * b / 255` rounded. -/
def muldiv255 (a b : Nat) : Nat :=
  ((a * b + 128) + (a * b + 128) / 256) / 256

/-- One channel of `bg.paste(im, mask=alpha)` with a white background. -/
def blendWhite (c a : Nat) : Nat := muldiv255 c a + muldiv255 255 (255 - a)

/-- Flattening an RGBA pixel onto a white background. -/
def flattenPix (p : RGB × Nat) : RGB :=
  (blendWhite p.1.1 p.2, blendWhite p.1.2.1 p.2, blendWhite p.1.2.2 p.2)

/-- PIL `im.convert("RGB")` on an RGBA pixel drops the alpha channel. -/
def dropAlpha (p : RGB × Nat) : RGB := p.1

/-- Non-zero alpha (the mask whose `getbbox` the RGBA branch takes). -/
def alphaNZ (p : RGB × Nat) : Bool := decide (p.2 ≠ 0)

/-- Embedding of `_auto_crop_png_whitespace` (lines 2232-2270) on a
decoded image: alpha bounding box (RGBA) with near-white fallback, crop,
then flatten onto white, always returning an RGB image. -/
def _auto_crop_png_whitespace (img : Img) : Img :=
  match img with
  | .rgb g =>
    match getbbox nonWhiteB g with
    | some (l, t, r, b) => .rgb (cropGrid g l t r b)
    | none => .rgb g
  | .rgba g =>
    let bbox :=
      match getbbox alphaNZ g with
      | some bx => some bx
      | none => getbbox nonWhiteB (mapGrid dropAlpha g)
    let g' :=
      match bbox with
      | some (l, t, r, b) => cropGrid g l t r b
      | none => g
    .rgb (mapGrid flattenPix g')

/-!
## `_DrawIO.xml_to_viewer_url` (main.py lines 1978-1984)

`zlib.compressobj(level=9, wbits=-15)` produces a raw DEFLATE stream (no
zlib header).  zlib is an external library; it is modelled as an oracle
carrying its documented contract: compression emits bytes and
decompression inverts compression.  Standard base64 (`base64.b64encode`)
and UTF-8 are implemented concretely below and proved invertible.
-/

/-- The standard base64 alphabet (RFC 4648, as used by
`base64.b64encode`). -/
def b64Alphabet : List Char :=
  "ABCDEFGHIJKLMNOPQRSTUVWXYZabcdefghijklmnopqrstuvwxyz0123456789+/".data

/-- The alphabet character for a 6-bit value. -/
def b64Chr (n : Nat) : Char := b64Alphabet.getD n 'A'

/-- Position of a character in a list (`none` when absent). -/
def lookupIdx (c : Char) : List Char → Option Nat
  | [] => none
  | a :: as => if a = c then some 0 else (lookupIdx c as).map (· + 1)

/-- The 6-bit value of a base64 alphabet character. -/
def b64Val (c : Char) : Option Nat := lookupIdx c b64Alphabet

/-- Python `base64.b64encode` on a byte list, producing the ASCII characters. -/
def b64Encode : List Nat → List Char
  | [] => []
  | [a] => [b64Chr (a / 4), b64Chr (a % 4 * 16), '=', '=']
  | [a, b] => [b64Chr (a / 4), b64Chr (a % 4 * 16 + b / 16),
               b64Chr (b % 16 * 4), '=']
  | a :: b :: c :: rest =>
    b64Chr (a / 4) :: b64Chr (a % 4 * 16 + b / 16) ::
      b64Chr (b % 16 * 4 + c / 64) :: b64Chr (c % 64) :: b64Encode rest

/-- Standard base64 decoding, the inverse used to read the URL fragment
back: `none` on any malformed input. -/
def b64Decode : List Char → Option (List Nat)
  | [] => some []
  | p :: q :: r :: s :: rest =>
    (b64Val p).bind fun a =>
      (b64Val q).bind fun b =>
        if r = '=' then
          if s = '=' ∧ rest = [] ∧ b % 16 = 0 then some [a * 4 + b / 16]
          else none
        else
          (b64Val r).bind fun c =>
            if s = '=' then
              if rest = [] ∧ c % 4 = 0 then
                some [a * 4 + b / 16, b % 16 * 16 + c / 4]
              else none
            else
              (b64Val s).bind fun d =>
                (b64Decode rest).map
                  (fun l => (a * 4 + b / 16) :: (b % 16 * 16 + c / 4) ::
                    (c % 4 * 64 + d) :: l)
  | _ => none

/-- UTF-8 encoding of one character (`str.encode("utf-8")`). -/
def utf8EncodeChar (c : Char) : List Nat :=
  if c.toNat < 128 then [c.toNat]
  else if c.toNat < 2048 then [192 + c.toNat / 64, 128 + c.toNat % 64]
  else if c.toNat < 65536 then
    [224 + c.toNat / 4096, 128 + c.toNat / 64 % 64, 128 + c.toNat % 64]
  else
    [240 + c.toNat / 262144, 128 + c.toNat / 4096 % 64, 128 + c.toNat / 64 % 64,
     128 + c.toNat % 64]

/-- UTF-8 encoding of a character list. -/
def utf8Encode : List Char → List Nat
  | [] => []
  | c :: cs => utf8EncodeChar c ++ utf8Encode cs

/-- Step function of a UTF-8 decoder, the inverse used to state the round
trip.  The state is `none` at a character boundary and `some (k, acc)`
inside a multi-byte sequence with `k` continuation bytes still expected
and `acc` the partial code point; any malformed byte yields `none`. -/
def utf8Run : Option (Nat × Nat) → List Nat → Option (List Char)
  | none, [] => some []
  | some _, [] => none
  | none, b :: bs =>
    if b < 128 then (utf8Run none bs).map (Char.ofNat b :: ·)
    else if b < 192 then none
    else if b < 224 then utf8Run (some (1, b - 192)) bs
    else if b < 240 then utf8Run (some (2, b - 224)) bs
    else if b < 248 then utf8Run (some (3, b - 240)) bs
    else none
  | some (k, acc), b :: bs =>
    if 128 ≤ b ∧ b < 192 then
      if k = 1 then
        (utf8Run none bs).map (Char.ofNat (acc * 64 + (b - 128)) :: ·)
      else utf8Run (some (k - 1, acc * 64 + (b - 128))) bs
    else none

/-- UTF-8 decoding: run the decoder from a character boundary. -/
def utf8Decode (bs : List Nat) : Option (List Char) := utf8Run none bs

/-- zlib raw-DEFLATE (`compressobj(level=9, wbits=-15)`) as an oracle with
its documented contract: compression emits bytes and raw-inflate inverts
compression on byte input. -/
structure DeflateOracle where
  compress : List Nat → List Nat
  inflate : List Nat → Option (List Nat)
  compress_bytes : ∀ l, (∀ x ∈ l, x < 256) → ∀ x ∈ compress l, x < 256
  inflate_compress : ∀ l, (∀ x ∈ l, x < 256) → inflate (compress l) = some l

/-- The fixed viewer base URL (everything before `#R`). -/
def viewerBase : String :=
  "https://viewer.diagrams.net/?lightbox=1&nav=1&layers=1&noSaveBtn=1"

/-- Embedding of `_DrawIO.xml_to_viewer_url(xml_str)` (lines 1978-1984):
raw-deflate the UTF-8 bytes, standard-base64 them, append after `#R`. -/
def xml_to_viewer_url (o : DeflateOracle) (xml_str : List Char) : List Char :=
  viewerBase.data ++ '#' :: 'R' :: b64Encode (o.compress (utf8Encode xml_str))

/-!
## Auxiliary definitions used by the theorems
-/

/-- The `ValueError` message raised by `merge_docx_files_with_page_breaks`. -/
def noBaseMsg : String :=
  "At least one valid document buffer is required as base document."

/-- Version of `mergeTail` as a `foldl` starting from an arbitrary accumulator. -/
def mergeTailFrom {α : Type} (acc : List (MergeElem α)) (tail : List (Option α)) :
    List (MergeElem α) :=
  tail.foldl (fun acc buf =>
    match buf with
    | none => acc
    | some b => acc ++ [MergeElem.pageBreak, MergeElem.frag b]) acc

/-- A 2×1 RGBA image: an opaque black pixel next to an opaque white
pixel.  Its alpha bounding box is the full image, so the first crop keeps
both pixels; after flattening, the white pixel becomes croppable
near-white border for the second application. -/
def exImg : Img :=
  .rgba ⟨2, 1, fun x _ => if x = 0 then ((0, 0, 0), 255) else ((255, 255, 255), 255)⟩

/-- The trivial instance of the raw-DEFLATE contract (identity
compression), used to instantiate the viewer-URL round-trip theorem. -/
def idDeflate : DeflateOracle where
  compress := id
  inflate := some
  compress_bytes := fun _ h => h
  inflate_compress := fun _ _ => rfl

/-!
# Theorems
-/

theorem mergeTailFrom_eq {α : Type} (tail : List (Option α)) :
    ∀ acc, mergeTailFrom acc tail = acc ++ mergeTail tail := by
  induction tail with
  | nil => intro acc; simp [mergeTailFrom, mergeTail]
  | cons buf t ih =>
    intro acc
    cases buf with
    | none =>
      show mergeTailFrom acc t = acc ++ mergeTailFrom [] t
      rw [ih acc, ih []]
      simp [mergeTail]
    | some b =>
      show mergeTailFrom (acc ++ [MergeElem.pageBreak, MergeElem.frag b]) t =
        acc ++ mergeTailFrom [MergeElem.pageBreak, MergeElem.frag b] t
      rw [ih (acc ++ [MergeElem.pageBreak, MergeElem.frag b]),
        ih [MergeElem.pageBreak, MergeElem.frag b]]
      simp

theorem mergeTail_cons_none {α : Type} (t : List (Option α)) :
    mergeTail (none :: t) = mergeTail t := rfl

theorem mergeTail_cons_some {α : Type} (b : α) (t : List (Option α)) :
    mergeTail (some b :: t) =
      MergeElem.pageBreak :: MergeElem.frag b :: mergeTail t := by
  show mergeTailFrom [MergeElem.pageBreak, MergeElem.frag b] t = _
  rw [mergeTailFrom_eq]
  rfl

/-- Dropping the `none` entries of the tail does not change `mergeTail`. -/
theorem mergeTail_reduceOption {α : Type} (tail : List (Option α)) :
    mergeTail tail = mergeTail (tail.reduceOption.map some) := by
  induction tail with
  | nil => rfl
  | cons buf t ih =>
    cases buf with
    | none => rw [mergeTail_cons_none, ih]; simp [List.reduceOption_cons_of_none]
    | some b =>
      rw [mergeTail_cons_some, ih]
      simp [List.reduceOption_cons_of_some, mergeTail_cons_some]

/-- C4: the composer fails (with the `ValueError` message) exactly when the
buffer list is empty or its first element is `None`; with a present first
fragment it succeeds, and `None` entries after the first are skipped — the
result equals the composition of the same list with the `None` entries
removed. -/
theorem merge_docx_base_and_skip {α : Type} (bufs : List (Option α)) :
    (bufs = [] → merge_docx_files_with_page_breaks bufs = .error noBaseMsg) ∧
    (bufs.head? = some none →
      merge_docx_files_with_page_breaks bufs = .error noBaseMsg) ∧
    (∀ b tl, bufs = some b :: tl →
      merge_docx_files_with_page_breaks bufs =
        .ok (MergeElem.frag b :: mergeTail tl) ∧
      merge_docx_files_with_page_breaks bufs =
        merge_docx_files_with_page_breaks (some b :: tl.reduceOption.map some)) := by
  refine ⟨?_, ?_, ?_⟩
  · rintro rfl; rfl
  · intro h
    match bufs, h with
    | none :: t, _ => rfl
  · rintro b tl rfl
    refine ⟨rfl, ?_⟩
    show Except.ok (MergeElem.frag b :: mergeTail tl) = _
    rw [mergeTail_reduceOption tl]
    rfl

/-- C4 witness: a concrete list whose first buffer is present and whose
second is `None` composes successfully, skipping the `None`. -/
theorem merge_docx_base_and_skip_witness :
    merge_docx_files_with_page_breaks [some 10, none, some 20] =
        .ok [MergeElem.frag 10, MergeElem.pageBreak, MergeElem.frag 20] ∧
      merge_docx_files_with_page_breaks [some 10, none, some 20] =
        merge_docx_files_with_page_breaks [some 10, some 20] ∧
      merge_docx_files_with_page_breaks ([] : List (Option Nat)) =
        .error noBaseMsg ∧
      merge_docx_files_with_page_breaks [(none : Option Nat), some 3] =
        .error noBaseMsg := by
  refine ⟨?_, ?_, ?_, ?_⟩
  · exact ((merge_docx_base_and_skip [some 10, none, some 20]).2.2 10
      [none, some 20] rfl).1
  · exact ((merge_docx_base_and_skip [some 10, none, some 20]).2.2 10
      [none, some 20] rfl).2
  · exact (merge_docx_base_and_skip ([] : List (Option Nat))).1 rfl
  · exact (merge_docx_base_and_skip [(none : Option Nat), some 3]).2.1 rfl

/-- C5: composing `n` present fragments inserts exactly `n - 1` page
breaks, the fragments appear in the listed order, and a 1-fragment list
yields just that fragment with no page break. -/
theorem merge_docx_page_break_count {α : Type} (ds : List α) (hne : ds ≠ []) :
    ∃ r, merge_docx_files_with_page_breaks (ds.map some) = .ok r ∧
      (r.filter MergeElem.isBreak).length = ds.length - 1 ∧
      r.filterMap MergeElem.frag? = ds ∧
      (∀ d, ds = [d] → r = [MergeElem.frag d]) := by
  match ds, hne with
  | d :: rest, _ =>
    refine ⟨MergeElem.frag d :: mergeTail (rest.map some), rfl, ?_, ?_, ?_⟩
    · simp only [List.filter, MergeElem.isBreak, List.length_cons]
      clear hne
      induction rest with
      | nil => rfl
      | cons b t ih =>
        rw [List.map_cons, mergeTail_cons_some]
        simpa [MergeElem.isBreak] using ih
    · simp only [List.filterMap, MergeElem.frag?]
      congr 1
      clear hne
      induction rest with
      | nil => rfl
      | cons b t ih =>
        rw [List.map_cons, mergeTail_cons_some]
        simpa [MergeElem.frag?] using ih
    · rintro e he
      cases he
      rfl

/-- C5 witness: three concrete fragments compose with exactly two inserted
page breaks in order, and a singleton composes to itself. -/
theorem merge_docx_page_break_count_witness :
    (∃ r, merge_docx_files_with_page_breaks ([1, 2, 3].map some) = .ok r ∧
      (r.filter MergeElem.isBreak).length = 2 ∧
      r.filterMap MergeElem.frag? = [1, 2, 3] ∧
      (∀ d, [1, 2, 3] = [d] → r = [MergeElem.frag d])) ∧
    (∃ r, merge_docx_files_with_page_breaks ([7].map some) = .ok r ∧
      (r.filter MergeElem.isBreak).length = 0 ∧
      r.filterMap MergeElem.frag? = [7] ∧
      (∀ d, [7] = [d] → r = [MergeElem.frag d])) := by
  constructor
  · exact merge_docx_page_break_count [1, 2, 3] (by decide)
  · exact merge_docx_page_break_count [7] (by decide)

/-- C9: the style-class inference is total over the four categories, with
reject keywords taking priority over accept keywords, accept over the
core-equipment ("main") keywords, and `"sub"` as the default for
unmatched labels. -/
theorem infer_class_priority (label : String) :
    (_infer_class label = "reject" ∨ _infer_class label = "accept" ∨
      _infer_class label = "main" ∨ _infer_class label = "sub") ∧
    (anyKeyword rejectKeywords (lowerChars label.data) = true →
      _infer_class label = "reject") ∧
    (anyKeyword rejectKeywords (lowerChars label.data) = false →
      anyKeyword acceptKeywords (lowerChars label.data) = true →
      _infer_class label = "accept") ∧
    (anyKeyword rejectKeywords (lowerChars label.data) = false →
      anyKeyword acceptKeywords (lowerChars label.data) = false →
      anyKeyword mainKeywords (lowerChars label.data) = true →
      _infer_class label = "main") ∧
    (anyKeyword rejectKeywords (lowerChars label.data) = false →
      anyKeyword acceptKeywords (lowerChars label.data) = false →
      anyKeyword mainKeywords (lowerChars label.data) = false →
      _infer_class label = "sub") := by
  cases hr : anyKeyword rejectKeywords (lowerChars label.data) <;>
    cases ha : anyKeyword acceptKeywords (lowerChars label.data) <;>
      cases hm : anyKeyword mainKeywords (lowerChars label.data) <;>
        simp [_infer_class, hr, ha, hm]

/-- C9 witness: the four priority branches at concrete labels. -/
theorem infer_class_priority_witness :
    _infer_class "Sorter Reject" = "reject" ∧
      _infer_class "Accept chute" = "accept" ∧
      _infer_class "Infeed conveyor" = "main" ∧
      _infer_class "Manual packing" = "sub" := by
  refine ⟨?_, ?_, ?_, ?_⟩
  · exact (infer_class_priority "Sorter Reject").2.1 (by decide)
  · exact (infer_class_priority "Accept chute").2.2.1 (by decide) (by decide)
  · exact (infer_class_priority "Infeed conveyor").2.2.2.1 (by decide)
      (by decide) (by decide)
  · exact (infer_class_priority "Manual packing").2.2.2.2 (by decide)
      (by decide) (by decide)

/-- C7: the refresh handler evaluated at its failing input — a click one
second after the previous refresh, inside the 3-second cooldown window.
The computed `can_refresh` flag is `false`, yet the external export
(`_auto_refresh_drawio_preview`) is still invoked: the flag is computed
(lines 2968-2973) but never consulted by the button handler (line 2975),
so the second export is not skipped as the cooldown intends. -/
theorem refresh_click_ignores_cooldown :
    (step4_refresh_click (some 100) 101 true).canRefresh = false ∧
      (step4_refresh_click (some 100) 101 true).exportInvoked = true := by
  constructor
  · show (if (101 : ℚ) - 100 < 3 then false else true) = false
    norm_num
  · rfl

/-- C1: when every rendering strategy fails — the Kroki raster call
(timeout/exception, non-200, or empty body, all folded into
`strat1 env = none`), the Kroki vector + local rasterization path, both
mermaid.ink variants, and the headless-browser screenshot — the renderer
returns `none` ("no artifact").  The embedding is a total function, so no
exception reaches the caller: every raising site of the source sits inside
a `try`/`except` whose handler the oracles reflect. -/
theorem best_effort_none_of_all_fail (env : RenderEnv) (code : String)
    (h1 : strat1 env = none) (h2 : strat2 env = none)
    (h3 : strat3 env = none) (h4 : strat4 env = none)
    (hc : env.chrome = none) :
    mermaid_to_png_best_effort env code = none := by
  have hch : mermaid_to_png_via_chrome env code = none := by
    unfold mermaid_to_png_via_chrome
    split <;> simp [hc]
  have hk : mermaid_to_png_via_kroki env code = none := by
    unfold mermaid_to_png_via_kroki
    split
    · rfl
    · simp [h1, h2, h3, h4]
  unfold mermaid_to_png_best_effort
  rw [hk]
  exact hch

/-- C1 witness: a concrete environment where strategy 1 gets a non-200
response, strategy 2 times out, strategy 3 gets an empty body, strategy 4
gets a vector body whose local rasterization raises, and the browser
strategy raises. -/
theorem best_effort_none_of_all_fail_witness :
    mermaid_to_png_best_effort
      { hasRequests := true, hasCairosvg := true, hasSelenium := true,
        krokiPng := some (false, [1]), krokiSvg := none,
        inkPng := some (true, []), inkSvg := some (true, [7]),
        cairo := fun _ => none, chrome := none }
      "flowchart TD" = none :=
  best_effort_none_of_all_fail _ _ rfl rfl rfl rfl rfl

/-- C2: when strategy 1 (Kroki raster endpoint) returns a successful
non-empty response, the renderer returns exactly those bytes.  All other
environment fields — the strategy 2-4 oracles and the browser oracle —
are universally quantified and absent from the hypotheses, so the result
provably does not depend on them: the later strategies are not invoked,
which is the short-circuit of the sequential chain. -/
theorem best_effort_short_circuit (env : RenderEnv) (code : String)
    (c : List Nat) (hreq : env.hasRequests = true) (hcode : code ≠ "")
    (hresp : env.krokiPng = some (true, c)) (hne : c ≠ []) :
    mermaid_to_png_best_effort env code = some c := by
  have h1 : strat1 env = some c := by
    unfold strat1 tryResp
    rw [hresp]
    simp [hne]
  have hk : mermaid_to_png_via_kroki env code = some c := by
    unfold mermaid_to_png_via_kroki
    rw [if_neg (by simp [hreq, hcode]), h1]
  unfold mermaid_to_png_best_effort
  rw [hk]
  simp [hne]

/-- C2 witness: a concrete environment in which strategy 1 succeeds while
every later strategy would also have succeeded with different bytes; the
renderer still returns strategy 1's bytes. -/
theorem best_effort_short_circuit_witness :
    mermaid_to_png_best_effort
      { hasRequests := true, hasCairosvg := true, hasSelenium := true,
        krokiPng := some (true, [9, 9]), krokiSvg := some (true, [5]),
        inkPng := some (true, [6]), inkSvg := some (true, [7]),
        cairo := fun _ => some [8], chrome := some [4] }
      "flowchart TD" = some [9, 9] :=
  best_effort_short_circuit _ _ [9, 9] rfl (by decide) rfl (by decide)

/-- C6: the two prose-generation calls populate two fixed slots by request
index: for either completion order of `as_completed`, the returned pair is
`(slot of call 0, slot of call 1)`; a call that raises fills only its own
slot with the diagnostic placeholder string, the other slot keeps its
result, and the (total) embedding always returns a pair of strings — the
same holds for the executive-summary generator once its PDF preamble
succeeds with a non-empty page list. -/
theorem prose_slots_fixed_by_index (r0 r1 : Except String (Option String))
    (order : List (Fin 2)) (horder : order = [0, 1] ∨ order = [1, 0]) :
    generate_cover_letters_concurrent r0 r1 order =
      (slotResult "Cover letter generation failed: " r0,
       slotResult "Cover letter generation failed: " r1) ∧
    (∀ pages : List String, pages ≠ [] →
      generate_exec_summaries_concurrent (.ok pages) r0 r1 order =
        (slotResult "Executive summary generation failed: " r0,
         slotResult "Executive summary generation failed: " r1)) ∧
    (∀ e, slotResult "Cover letter generation failed: " (.error e) =
      "Cover letter generation failed: " ++ e) := by
  have hfill : ∀ p, fillSlots p r0 r1 order =
      (slotValue p r0, slotValue p r1) := by
    intro p
    rcases horder with rfl | rfl <;> rfl
  refine ⟨?_, ?_, ?_⟩
  · unfold generate_cover_letters_concurrent
    rw [hfill]
    rfl
  · intro pages hpages
    have hred : generate_exec_summaries_concurrent (.ok pages) r0 r1 order =
        (if pages = [] then ("No pages found in PDF.", "No pages found in PDF.")
         else
           let o := fillSlots "Executive summary generation failed: " r0 r1 order
           (o.1.getD "", o.2.getD "")) := rfl
    rw [hred, if_neg hpages, hfill]
    rfl
  · intro e
    rfl

/-- C6 witness: call 0 raises and call 1 succeeds, with call 1 completing
first; slot 0 carries the placeholder, slot 1 the result. -/
theorem prose_slots_fixed_by_index_witness :
    generate_cover_letters_concurrent (.error "boom") (.ok (some "text"))
        [1, 0] = ("Cover letter generation failed: boom", "text") ∧
      generate_exec_summaries_concurrent (.ok ["page"]) (.error "boom")
        (.ok (some "text")) [1, 0] =
        ("Executive summary generation failed: boom", "text") := by
  constructor
  · exact (prose_slots_fixed_by_index (.error "boom") (.ok (some "text"))
      [1, 0] (Or.inr rfl)).1
  · exact (prose_slots_fixed_by_index (.error "boom") (.ok (some "text"))
      [1, 0] (Or.inr rfl)).2.1 ["page"] (by decide)

/-- C3 counterexample: at a concrete input — non-empty extracted text and
a generative response `"not a diagram"` that fails the `flowchart`
validation — the handler surfaces the error after exactly ONE generative
call; the claimed retry (a second call with the same input) never
happens. -/
theorem synthesis_retry_counterexample :
    (step4_generate "process text" (some (some "not a diagram"))).errorShown
        = true ∧
      (step4_generate "process text" (some (some "not a diagram"))).llmCalls
        = 1 ∧
      ¬ (step4_generate "process text" (some (some "not a diagram"))).llmCalls
        = 2 := by
  decide

/-- C3 amended: the raw generative response is stripped of enclosing
code-fence markup (with a salvage pass extracting a trailing
`flowchart TD` section) and validated to begin with `flowchart`; if the
validation fails the error is surfaced immediately — the generative call
is NOT retried: exactly one call is issued per generation request (zero
when text extraction produced nothing). -/
theorem synthesis_single_call (txt : String) (llm : Option (Option String)) :
    (step4_generate txt llm).llmCalls = (if txt = "" then 0 else 1) ∧
    (step4_generate txt llm).llmCalls ≤ 1 ∧
    ((step4_generate txt llm).errorShown = true ↔
      (step4_generate txt llm).stored = none) ∧
    (txt ≠ "" → ∀ content, llm = some content →
      ((step4_generate txt llm).errorShown = true ↔
        (ask_llm_mermaid content = "" ∨
          leadsWith "flowchart".data
            (lowerChars (ask_llm_mermaid content).data) = false))) ∧
    ask_llm_mermaid (some "```mermaid\nflowchart TD\n A-->B\n```")
      = "flowchart TD\n A-->B" := by
  refine ⟨?_, ?_, ?_, ?_, by decide⟩
  · by_cases ht : txt = "" <;> cases llm <;>
      simp only [step4_generate, ht, if_true, if_false] <;> split <;> rfl
  · by_cases ht : txt = "" <;> cases llm <;>
      simp only [step4_generate, ht, if_true, if_false] <;> split <;> simp
  · by_cases ht : txt = "" <;> cases llm <;>
      simp only [step4_generate, ht, if_true, if_false] <;> split <;> simp
  · intro ht content hcontent
    subst hcontent
    simp only [step4_generate, if_neg ht]
    constructor
    · intro h
      by_contra hno
      push_neg at hno
      obtain ⟨hne, hlead⟩ := hno
      rw [if_neg (by simp [hne, hlead])] at h
      exact Bool.false_ne_true h
    · intro h
      rw [if_pos ?_]
      rcases h with h | h
      · exact Or.inl h
      · exact Or.inr (by simp [h])

/-- C3 witness: the amended theorem applied at non-empty extracted text
and the invalid response `"hello"`: one call is issued and the error
condition holds exactly when the processed response fails validation. -/
theorem synthesis_single_call_witness :
    (step4_generate "t" (some (some "hello"))).llmCalls = 1 ∧
      ((step4_generate "t" (some (some "hello"))).errorShown = true ↔
        (ask_llm_mermaid (some "hello") = "" ∨
          leadsWith "flowchart".data
            (lowerChars (ask_llm_mermaid (some "hello")).data) = false)) := by
  constructor
  · have h := (synthesis_single_call "t" (some (some "hello"))).1
    rwa [if_neg (by decide)] at h
  · exact (synthesis_single_call "t" (some (some "hello"))).2.2.2.1
      (by decide) (some "hello") rfl

theorem mem_hitCols {π : Type} (p : π → Bool) (g : Grid π) (x : Nat) :
    x ∈ hitCols p g ↔ x < g.w ∧ ∃ y, y < g.h ∧ p (g.pix x y) = true := by
  simp [hitCols, Finset.mem_filter, Finset.mem_range, and_comm]

theorem mem_hitRows {π : Type} (p : π → Bool) (g : Grid π) (y : Nat) :
    y ∈ hitRows p g ↔ y < g.h ∧ ∃ x, x < g.w ∧ p (g.pix x y) = true := by
  simp [hitRows, Finset.mem_filter, Finset.mem_range, and_comm]

/-- Cropping to the tight bounding box of the mask `p` yields an image
whose own `p`-bounding box is the full frame. -/
theorem getbbox_crop {π : Type} (p : π → Bool) (g : Grid π) (l t r b : Nat)
    (h : getbbox p g = some (l, t, r, b)) :
    getbbox p (cropGrid g l t r b) = some (0, 0, r - l, b - t) := by
  unfold getbbox at h
  split at h
  case isFalse => exact absurd h (by simp)
  case isTrue hc =>
    split at h
    case isFalse => exact absurd h (by simp)
    case isTrue hr =>
      rw [Option.some_inj, Prod.mk.injEq, Prod.mk.injEq, Prod.mk.injEq] at h
      obtain ⟨hl, ht, hrr, hbb⟩ := h
      -- bounds of every hit column / hit row
      have colLB : ∀ x ∈ hitCols p g, l ≤ x := fun x hx => hl ▸ Finset.min'_le _ x hx
      have colUB : ∀ x ∈ hitCols p g, x + 1 ≤ r := fun x hx =>
        hrr ▸ Nat.succ_le_succ (Finset.le_max' _ x hx)
      have rowLB : ∀ y ∈ hitRows p g, t ≤ y := fun y hy => ht ▸ Finset.min'_le _ y hy
      have rowUB : ∀ y ∈ hitRows p g, y + 1 ≤ b := fun y hy =>
        hbb ▸ Nat.succ_le_succ (Finset.le_max' _ y hy)
      -- every hit pixel lies in the box
      have inBox : ∀ x y, x < g.w → y < g.h → p (g.pix x y) = true →
          l ≤ x ∧ x < r ∧ t ≤ y ∧ y < b := by
        intro x y hx hy hp
        have hxc : x ∈ hitCols p g := (mem_hitCols p g x).2 ⟨hx, y, hy, hp⟩
        have hyr : y ∈ hitRows p g := (mem_hitRows p g y).2 ⟨hy, x, hx, hp⟩
        exact ⟨colLB x hxc, colUB x hxc, rowLB y hyr, rowUB y hyr⟩
      -- witnesses on the four extreme lines of the box
      obtain ⟨hlw, yl, hyl, hpl⟩ := (mem_hitCols p g l).1 (hl ▸ Finset.min'_mem _ hc)
      obtain ⟨hrw', yr, hyr', hpr⟩ := (mem_hitCols p g (r - 1)).1
        (by have := Finset.max'_mem (hitCols p g) hc; rwa [show (hitCols p g).max' hc = r - 1 by omega] at this)
      obtain ⟨htw, xt, hxt, hpt⟩ := (mem_hitRows p g t).1 (ht ▸ Finset.min'_mem _ hr)
      obtain ⟨hbw', xb, hxb, hpb⟩ := (mem_hitRows p g (b - 1)).1
        (by have := Finset.max'_mem (hitRows p g) hr; rwa [show (hitRows p g).max' hr = b - 1 by omega] at this)
      have hlr : l < r := by
        have := (inBox l yl hlw hyl hpl).2.1
        omega
      have htb : t < b := by
        have h1 := (inBox l yl hlw hyl hpl).2.2.1
        have h2 := (inBox l yl hlw hyl hpl).2.2.2
        omega
      set c := cropGrid g l t r b with hcdef
      have hcw : c.w = r - l := rfl
      have hch : c.h = b - t := rfl
      have cpix : ∀ x y, c.pix x y = g.pix (x + l) (y + t) := fun _ _ => rfl
      -- the four extreme lines of the cropped frame are hit
      have hm0c : 0 ∈ hitCols p c := by
        rw [mem_hitCols, hcw, hch]
        refine ⟨by omega, yl - t, ?_, ?_⟩
        · have := (inBox l yl hlw hyl hpl).2.2
          omega
        · rw [cpix]
          have h1 : t ≤ yl := (inBox l yl hlw hyl hpl).2.2.1
          rw [Nat.zero_add, Nat.sub_add_cancel h1]
          exact hpl
      have hmwc : r - l - 1 ∈ hitCols p c := by
        rw [mem_hitCols, hcw, hch]
        refine ⟨by omega, yr - t, ?_, ?_⟩
        · have := (inBox (r - 1) yr hrw' hyr' hpr).2.2
          omega
        · rw [cpix]
          have h1 : t ≤ yr := (inBox (r - 1) yr hrw' hyr' hpr).2.2.1
          rw [show r - l - 1 + l = r - 1 by omega, Nat.sub_add_cancel h1]
          exact hpr
      have hm0r : 0 ∈ hitRows p c := by
        rw [mem_hitRows, hch, hcw]
        refine ⟨by omega, xt - l, ?_, ?_⟩
        · have h1 := (inBox xt t hxt htw hpt).2.1
          have h2 := (inBox xt t hxt htw hpt).1
          omega
        · rw [cpix]
          have h1 : l ≤ xt := (inBox xt t hxt htw hpt).1
          rw [Nat.zero_add, Nat.sub_add_cancel h1]
          exact hpt
      have hmhr : b - t - 1 ∈ hitRows p c := by
        rw [mem_hitRows, hch, hcw]
        refine ⟨by omega, xb - l, ?_, ?_⟩
        · have h1 := (inBox xb (b - 1) hxb hbw' hpb).2.1
          have h2 := (inBox xb (b - 1) hxb hbw' hpb).1
          omega
        · rw [cpix]
          have h1 : l ≤ xb := (inBox xb (b - 1) hxb hbw' hpb).1
          rw [show b - t - 1 + t = b - 1 by omega, Nat.sub_add_cancel h1]
          exact hpb
      have hc' : (hitCols p c).Nonempty := ⟨0, hm0c⟩
      have hr' : (hitRows p c).Nonempty := ⟨0, hm0r⟩
      have hminc : (hitCols p c).min' hc' = 0 :=
        Nat.le_zero.1 (Finset.min'_le _ 0 hm0c)
      have hminr : (hitRows p c).min' hr' = 0 :=
        Nat.le_zero.1 (Finset.min'_le _ 0 hm0r)
      have hmaxc : (hitCols p c).max' hc' = r - l - 1 := by
        have h1 := Finset.le_max' _ _ hmwc
        have h2 := ((mem_hitCols p c _).1 (Finset.max'_mem _ hc')).1
        rw [hcw] at h2
        omega
      have hmaxr : (hitRows p c).max' hr' = b - t - 1 := by
        have h1 := Finset.le_max' _ _ hmhr
        have h2 := ((mem_hitRows p c _).1 (Finset.max'_mem _ hr')).1
        rw [hch] at h2
        omega
      unfold getbbox
      rw [dif_pos hc', dif_pos hr', hminc, hminr, hmaxc, hmaxr]
      refine congrArg some ?_
      rw [Prod.mk.injEq, Prod.mk.injEq, Prod.mk.injEq]
      exact ⟨rfl, rfl, by omega, by omega⟩

/-- C8 counterexample: `exImg` is an RGBA image whose alpha bounding box
is the full frame; one application of `_auto_crop_png_whitespace` keeps
its 2×1 dimensions while flattening the opaque white pixel onto white, and
the second application crops that near-white pixel away, shrinking it to
1×1 — so the normalization is not idempotent on the output of one
application. -/
theorem autocrop_not_idempotent_counterexample :
    (_auto_crop_png_whitespace exImg).dims = (2, 1) ∧
      (_auto_crop_png_whitespace (_auto_crop_png_whitespace exImg)).dims
        = (1, 1) ∧
      ¬ (_auto_crop_png_whitespace (_auto_crop_png_whitespace exImg)).dims
          = (_auto_crop_png_whitespace exImg).dims := by
  decide

/-- C8 amended: the normalization is idempotent on images without an
alpha channel: for every RGB-mode image, a second application of
`_auto_crop_png_whitespace` yields the same pixel dimensions as the
first (the near-white crop box of a tightly cropped image is the full
frame).  For an RGBA input the second application may crop further, as
pixels that survive the alpha bounding box can become near-white when
flattened onto the white background. -/
theorem autocrop_idempotent_on_rgb (g : Grid RGB) :
    (_auto_crop_png_whitespace (_auto_crop_png_whitespace (.rgb g))).dims =
      (_auto_crop_png_whitespace (.rgb g)).dims := by
  have hred : ∀ g' : Grid RGB, _auto_crop_png_whitespace (.rgb g') =
      (match getbbox nonWhiteB g' with
       | some (l, t, r, b) => Img.rgb (cropGrid g' l t r b)
       | none => Img.rgb g') := fun _ => rfl
  cases hb : getbbox nonWhiteB g with
  | none =>
    have h1 : _auto_crop_png_whitespace (.rgb g) = .rgb g := by
      rw [hred, hb]
    rw [h1, h1]
  | some bx =>
    obtain ⟨l, t, r, b⟩ := bx
    have h1 : _auto_crop_png_whitespace (.rgb g) = .rgb (cropGrid g l t r b) := by
      rw [hred, hb]
    have h2 : _auto_crop_png_whitespace (.rgb (cropGrid g l t r b)) =
        .rgb (cropGrid (cropGrid g l t r b) 0 0 (r - l) (b - t)) := by
      rw [hred, getbbox_crop nonWhiteB g l t r b hb]
    rw [h1, h2]
    simp [Img.dims, cropGrid]

theorem b64Val_b64Chr_fin : ∀ n : Fin 64, b64Val (b64Chr n.val) = some n.val := by
  decide

theorem b64Val_b64Chr (n : Nat) (h : n < 64) : b64Val (b64Chr n) = some n :=
  b64Val_b64Chr_fin ⟨n, h⟩

theorem b64Chr_ne_pad_fin : ∀ n : Fin 64, b64Chr n.val ≠ '=' := by
  decide

theorem b64Chr_ne_pad (n : Nat) (h : n < 64) : b64Chr n ≠ '=' :=
  b64Chr_ne_pad_fin ⟨n, h⟩

/-- Standard base64 decoding inverts encoding on byte lists. -/
theorem b64Decode_b64Encode :
    ∀ l : List Nat, (∀ x ∈ l, x < 256) → b64Decode (b64Encode l) = some l
  | [], _ => rfl
  | [a], h => by
    have ha : a < 256 := h a (by simp)
    show b64Decode [b64Chr (a / 4), b64Chr (a % 4 * 16), '=', '='] = some [a]
    rw [b64Decode, b64Val_b64Chr (a / 4) (by omega),
      b64Val_b64Chr (a % 4 * 16) (by omega)]
    simp only [Option.some_bind]
    rw [if_pos (by simp), if_pos (by exact ⟨by simp, by simp, by omega⟩),
      show a / 4 * 4 + a % 4 * 16 / 16 = a by omega]
  | [a, b], h => by
    have ha : a < 256 := h a (by simp)
    have hb : b < 256 := h b (by simp)
    show b64Decode [b64Chr (a / 4), b64Chr (a % 4 * 16 + b / 16),
      b64Chr (b % 16 * 4), '='] = some [a, b]
    rw [b64Decode, b64Val_b64Chr (a / 4) (by omega),
      b64Val_b64Chr (a % 4 * 16 + b / 16) (by omega)]
    simp only [Option.some_bind]
    rw [if_neg (b64Chr_ne_pad (b % 16 * 4) (by omega)),
      b64Val_b64Chr (b % 16 * 4) (by omega)]
    simp only [Option.some_bind]
    rw [if_pos (by simp), if_pos (by exact ⟨by simp, by omega⟩),
      show a / 4 * 4 + (a % 4 * 16 + b / 16) / 16 = a by omega,
      show (a % 4 * 16 + b / 16) % 16 * 16 + b % 16 * 4 / 4 = b by omega]
  | a :: b :: c :: rest, h => by
    have ha : a < 256 := h a (by simp)
    have hb : b < 256 := h b (by simp)
    have hc : c < 256 := h c (by simp)
    have ih := b64Decode_b64Encode rest (fun x hx => h x (by simp [hx]))
    show b64Decode (b64Chr (a / 4) :: b64Chr (a % 4 * 16 + b / 16) ::
      b64Chr (b % 16 * 4 + c / 64) :: b64Chr (c % 64) ::
      b64Encode rest) = some (a :: b :: c :: rest)
    rw [b64Decode, b64Val_b64Chr (a / 4) (by omega),
      b64Val_b64Chr (a % 4 * 16 + b / 16) (by omega)]
    simp only [Option.some_bind]
    rw [if_neg (b64Chr_ne_pad (b % 16 * 4 + c / 64) (by omega)),
      b64Val_b64Chr (b % 16 * 4 + c / 64) (by omega)]
    simp only [Option.some_bind]
    rw [if_neg (b64Chr_ne_pad (c % 64) (by omega)),
      b64Val_b64Chr (c % 64) (by omega)]
    simp only [Option.some_bind]
    rw [ih,
      show a / 4 * 4 + (a % 4 * 16 + b / 16) / 16 = a by omega,
      show (a % 4 * 16 + b / 16) % 16 * 16 + (b % 16 * 4 + c / 64) / 4 = b by
        omega,
      show (b % 16 * 4 + c / 64) % 4 * 64 + c % 64 = c by omega]
    rfl

theorem char_toNat_lt (ch : Char) : ch.toNat < 1114112 := by
  rcases ch.valid with h | ⟨h1, h2⟩ <;> (show ch.val.toNat < 1114112; omega)

/-- UTF-8 decoding inverts the one-character encoding at the head of a
byte stream. -/
theorem utf8Decode_encodeChar (ch : Char) (rest : List Nat) :
    utf8Decode (utf8EncodeChar ch ++ rest) = (utf8Decode rest).map (ch :: ·) := by
  have hlt : ch.toNat < 1114112 := char_toNat_lt ch
  show utf8Run none (utf8EncodeChar ch ++ rest) = (utf8Run none rest).map (ch :: ·)
  by_cases h1 : ch.toNat < 128
  · have he : utf8EncodeChar ch = [ch.toNat] := by
      unfold utf8EncodeChar
      rw [if_pos h1]
    rw [he, List.cons_append, List.nil_append, utf8Run, if_pos h1,
      Char.ofNat_toNat]
  · by_cases h2 : ch.toNat < 2048
    · have he : utf8EncodeChar ch =
          [192 + ch.toNat / 64, 128 + ch.toNat % 64] := by
        unfold utf8EncodeChar
        rw [if_neg h1, if_pos h2]
      rw [he, List.cons_append, List.cons_append, List.nil_append, utf8Run,
        if_neg (by omega), if_neg (by omega), if_pos (by omega), utf8Run,
        if_pos (by omega), if_pos rfl,
        show (192 + ch.toNat / 64 - 192) * 64 + (128 + ch.toNat % 64 - 128)
          = ch.toNat by omega,
        Char.ofNat_toNat]
    · by_cases h3 : ch.toNat < 65536
      · have he : utf8EncodeChar ch = [224 + ch.toNat / 4096,
            128 + ch.toNat / 64 % 64, 128 + ch.toNat % 64] := by
          unfold utf8EncodeChar
          rw [if_neg h1, if_neg h2, if_pos h3]
        rw [he, List.cons_append, List.cons_append, List.cons_append,
          List.nil_append, utf8Run,
          if_neg (by omega), if_neg (by omega), if_neg (by omega),
          if_pos (by omega), utf8Run, if_pos (by omega), if_neg (by omega),
          utf8Run, if_pos (by omega), if_pos rfl,
          show ((224 + ch.toNat / 4096 - 224) * 64 +
              (128 + ch.toNat / 64 % 64 - 128)) * 64 +
              (128 + ch.toNat % 64 - 128) = ch.toNat by omega,
          Char.ofNat_toNat]
      · have he : utf8EncodeChar ch = [240 + ch.toNat / 262144,
            128 + ch.toNat / 4096 % 64, 128 + ch.toNat / 64 % 64,
            128 + ch.toNat % 64] := by
          unfold utf8EncodeChar
          rw [if_neg h1, if_neg h2, if_neg h3]
        rw [he, List.cons_append, List.cons_append, List.cons_append,
          List.cons_append, List.nil_append, utf8Run,
          if_neg (by omega), if_neg (by omega), if_neg (by omega),
          if_neg (by omega), if_pos (by omega), utf8Run, if_pos (by omega),
          if_neg (by omega), utf8Run, if_pos (by omega), if_neg (by omega),
          utf8Run, if_pos (by omega), if_pos rfl,
          show (((240 + ch.toNat / 262144 - 240) * 64 +
              (128 + ch.toNat / 4096 % 64 - 128)) * 64 +
              (128 + ch.toNat / 64 % 64 - 128)) * 64 +
              (128 + ch.toNat % 64 - 128) = ch.toNat by omega,
          Char.ofNat_toNat]

/-- UTF-8 decoding inverts UTF-8 encoding. -/
theorem utf8Decode_utf8Encode (s : List Char) :
    utf8Decode (utf8Encode s) = some s := by
  induction s with
  | nil => rfl
  | cons ch cs ih =>
    show utf8Decode (utf8EncodeChar ch ++ utf8Encode cs) = _
    rw [utf8Decode_encodeChar, ih]
    rfl

/-- UTF-8 encoding emits bytes. -/
theorem utf8Encode_lt (s : List Char) : ∀ x ∈ utf8Encode s, x < 256 := by
  induction s with
  | nil => intro x hx; cases hx
  | cons ch cs ih =>
    intro x hx
    have hlt : ch.toNat < 1114112 := char_toNat_lt ch
    have hx' : x ∈ utf8EncodeChar ch ∨ x ∈ utf8Encode cs := by
      have hsplit : utf8Encode (ch :: cs) = utf8EncodeChar ch ++ utf8Encode cs :=
        rfl
      rw [hsplit] at hx
      exact List.mem_append.1 hx
    rcases hx' with hx' | hx'
    · unfold utf8EncodeChar at hx'
      split at hx'
      · simp at hx'
        omega
      · split at hx'
        · simp at hx'
          rcases hx' with rfl | rfl <;> omega
        · split at hx'
          · simp at hx'
            rcases hx' with rfl | rfl | rfl <;> omega
          · simp at hx'
            rcases hx' with rfl | rfl | rfl | rfl <;> omega
    · exact ih x hx'

/-- C10: the viewer link is the fixed base URL, then `#R`, then the
standard base64 encoding of the raw-deflate compression of the UTF-8
bytes of the exported markup; decoding the fragment after `#R` (base64
decode, then raw inflate, then UTF-8 decode) recovers the markup exactly,
for every compressor satisfying the raw-DEFLATE contract — the link is
self-contained. -/
theorem viewer_url_roundtrip (o : DeflateOracle) (xml_str : List Char) :
    xml_to_viewer_url o xml_str =
      viewerBase.data ++ '#' :: 'R' ::
        b64Encode (o.compress (utf8Encode xml_str)) ∧
    b64Decode ((xml_to_viewer_url o xml_str).drop (viewerBase.data.length + 2))
      = some (o.compress (utf8Encode xml_str)) ∧
    ((b64Decode ((xml_to_viewer_url o xml_str).drop
        (viewerBase.data.length + 2))).bind o.inflate).bind utf8Decode
      = some xml_str := by
  have hbytes : ∀ x ∈ utf8Encode xml_str, x < 256 := utf8Encode_lt xml_str
  have hcbytes := o.compress_bytes (utf8Encode xml_str) hbytes
  have hdrop : (xml_to_viewer_url o xml_str).drop (viewerBase.data.length + 2)
      = b64Encode (o.compress (utf8Encode xml_str)) := by
    show (viewerBase.data ++ '#' :: 'R' ::
      b64Encode (o.compress (utf8Encode xml_str))).drop
        (viewerBase.data.length + 2) = _
    rw [show viewerBase.data ++ '#' :: 'R' ::
        b64Encode (o.compress (utf8Encode xml_str)) =
        (viewerBase.data ++ ['#', 'R']) ++
          b64Encode (o.compress (utf8Encode xml_str)) by simp]
    exact List.drop_left' (by simp)
  refine ⟨rfl, ?_, ?_⟩
  · rw [hdrop]
    exact b64Decode_b64Encode _ hcbytes
  · rw [hdrop, b64Decode_b64Encode _ hcbytes, Option.some_bind,
      o.inflate_compress _ hbytes, Option.some_bind]
    exact utf8Decode_utf8Encode xml_str

/-- C10 witness: the round trip at the identity instance of the DEFLATE
contract and a concrete markup string. -/
theorem viewer_url_roundtrip_witness :
    ((b64Decode ((xml_to_viewer_url idDeflate "<mxfile/>".data).drop
        (viewerBase.data.length + 2))).bind idDeflate.inflate).bind utf8Decode
      = some "<mxfile/>".data :=
  (viewer_url_roundtrip idDeflate "<mxfile/>".data).2.2

end SPAS
